import Mathlib

/-!
Verification of the ARMA-GARCH batch training service.

The development shallowly embeds the batch orchestration pipeline of the
repository (training_service.py, financial_models.py, database_retrieval.py)
in Lean 4.  Machine floats are modelled as rationals, Python dictionaries as
association lists with a first-match lookup, and the external collaborators
(the price store, the ARIMA and GARCH estimators, and the metrics table
insert) as oracle functions collected in an `Env` record; a Python
`try/except` site appears as an `Except` value that the embedded code
pattern-matches on, exactly where the source catches.
-/

namespace ArmaGarch

/-- Association-list mapping with string keys, standing for a Python dict
restricted to the keys the embedded code reads.  `dget` is `dict.get`:
the value at the first matching key, or `none` when absent. -/
def dget {α : Type} : List (String × α) → String → Option α
  | [], _ => none
  | (k, v) :: rest, key => if k = key then some v else dget rest key

/-- A mapping from coefficient names to numeric values, as produced by the
fitted-model parameter tables. -/
abbrev ParamMap := List (String × ℚ)

/-- Python `m.get(k, d)`: the stored value when the key is present, the
default otherwise (financial_models.py uses this form throughout). -/
def getD (m : ParamMap) (k : String) (d : ℚ) : ℚ := (dget m k).getD d

/-- Python `x or y` on an optional float `x`: `y` when `x` is absent
(`None`) or equal to `0.0` (falsy), otherwise the value of `x`.  This is
the combinator underlying the fallback cascades of
database_retrieval.py lines 47-62. -/
def pyOr (x : Option ℚ) (y : ℚ) : ℚ :=
  match x with
  | none => y
  | some v => if v = 0 then y else v

/-- FittedModel: the raw coefficient mapping handed to the Parameter
Normalizer.  `top` holds the flattened numeric entries of the mapping
(also playing the role of the fitter coefficient table from which
`const`, `omega`, `alpha[1]`/`alpha` and `beta[1]`/`beta` are read in
financial_models.py lines 57-65), while `arma` and `garch` hold the
nested sub-mappings that `metrics.get("arma", {})` and
`metrics.get("garch", {})` produce in database_retrieval.py lines 47-48;
an absent sub-mapping is the empty list, matching the `{}` default. -/
structure FittedModel where
  top : ParamMap
  arma : ParamMap
  garch : ParamMap
  deriving DecidableEq

/-- NormalizedMetrics: the canonical seven-field record; every field is a
rational, so the record is fully populated by construction. -/
structure NormalizedMetrics where
  ar_coeff : ℚ
  ma_coeff : ℚ
  const : ℚ
  omega : ℚ
  alpha : ℚ
  beta : ℚ
  garch_volatility : ℚ
  deriving DecidableEq

/-- The Parameter Normalizer.  Field by field from the source:
`ar_coeff`, `ma_coeff`, `garch_volatility` are the Python `or` cascades of
database_retrieval.py lines 50-67 (flattened key, then the nested
sub-mapping keys, then `0.0`); `const` and `omega` are the plain
`params.get(key, 0)` reads of financial_models.py lines 48, 57;
`alpha` and `beta` are the two-variant reads
`params.get("alpha[1]", params.get("alpha", 0.0))` of
financial_models.py lines 60-64. -/
def normalize (fm : FittedModel) : NormalizedMetrics where
  ar_coeff :=
    pyOr (dget fm.top "ar_coeff")
      (pyOr (dget fm.arma "ar_coef") (pyOr (dget fm.arma "ar_coeff") 0))
  ma_coeff :=
    pyOr (dget fm.top "ma_coeff")
      (pyOr (dget fm.arma "ma_coef") (pyOr (dget fm.arma "ma_coeff") 0))
  const := getD fm.top "const" 0
  omega := getD fm.top "omega" 0
  alpha := getD fm.top "alpha[1]" (getD fm.top "alpha" 0)
  beta := getD fm.top "beta[1]" (getD fm.top "beta" 0)
  garch_volatility :=
    pyOr (dget fm.top "garch_volatility")
      (pyOr (dget fm.garch "last_volatility")
        (pyOr (dget fm.garch "garch_volatility") 0))

/-- First match of a priority list of candidate lookups, where a match is
a key that is present, whatever its value.  This is the literal reading of
the resolution policy in the specification (first-match wins down the
stated priority order). -/
def firstPresent : List (Option ℚ) → ℚ
  | [] => 0
  | none :: rest => firstPresent rest
  | some v :: _ => v

/-- First match of a priority list of candidate lookups, where a match is
a key that is present with a nonzero value; a present `0.0` is passed
over exactly like an absent key (the Python `or` behaviour). -/
def firstTruthy : List (Option ℚ) → ℚ
  | [] => 0
  | none :: rest => firstTruthy rest
  | some v :: rest => if v = 0 then firstTruthy rest else v

/-- Modelled from the claim wording for C3: the resolution policy read as
genuine first-match(presence)-wins on every field, used only to compare
against the source-derived `normalize`. -/
def normalize_claim (fm : FittedModel) : NormalizedMetrics where
  ar_coeff :=
    firstPresent [dget fm.top "ar_coeff", dget fm.arma "ar_coef", dget fm.arma "ar_coeff"]
  ma_coeff :=
    firstPresent [dget fm.top "ma_coeff", dget fm.arma "ma_coef", dget fm.arma "ma_coeff"]
  const := firstPresent [dget fm.top "const"]
  omega := firstPresent [dget fm.top "omega"]
  alpha := firstPresent [dget fm.top "alpha[1]", dget fm.top "alpha"]
  beta := firstPresent [dget fm.top "beta[1]", dget fm.top "beta"]
  garch_volatility :=
    firstPresent
      [dget fm.top "garch_volatility", dget fm.garch "last_volatility",
        dget fm.garch "garch_volatility"]

lemma pyOr3_eq_firstTruthy (t1 t2 t3 : Option ℚ) :
    pyOr t1 (pyOr t2 (pyOr t3 0)) = firstTruthy [t1, t2, t3] := by
  rcases t1 with _ | v1 <;> rcases t2 with _ | v2 <;> rcases t3 with _ | v3 <;>
    simp [pyOr, firstTruthy]

lemma getD2_eq_firstPresent (m : ParamMap) (k1 k2 : String) :
    getD m k1 (getD m k2 0) = firstPresent [dget m k1, dget m k2] := by
  rcases h1 : dget m k1 with _ | v1 <;> rcases h2 : dget m k2 with _ | v2 <;>
    simp [getD, firstPresent, h1, h2]

lemma getD1_eq_firstPresent (m : ParamMap) (k : String) :
    getD m k 0 = firstPresent [dget m k] := by
  rcases h : dget m k with _ | v <;> simp [getD, firstPresent, h]

/-- A Python value as it occurs in the result dictionaries of this
pipeline: a float, a bool, or a string.  The dictionaries that flow from
`train_and_extract_params` to the orchestrator and back to API callers
contain only these three shapes. -/
inductive PyVal where
  | num (q : ℚ)
  | pbool (b : Bool)
  | str (s : String)
  deriving DecidableEq

/-- A Python result dictionary: string keys, `PyVal` values. -/
abbrev FitDict := List (String × PyVal)

/-- Python truthiness of an optional value, as used by
`if model_result.get("success"):` — absent (`None`) is falsy, a float is
truthy iff nonzero, a bool is itself, a string is truthy iff nonempty. -/
def isTruthy : Option PyVal → Bool
  | none => false
  | some (.num q) => q != 0
  | some (.pbool b) => b
  | some (.str s) => s != ""

/-- Python `d[k] = v`: overwrite the value when the key is present,
append the new entry at the end otherwise. -/
def dictSet (d : FitDict) (k : String) (v : PyVal) : FitDict :=
  match dget d k with
  | some _ => d.map fun kv => if kv.1 = k then (kv.1, v) else kv
  | none => d ++ [(k, v)]

/-- Python `str(...)` of an optional value, as interpolated in the
`Training failed` log line (`str(None)` prints `None`). -/
def pyShow : Option PyVal → String
  | none => "None"
  | some (.num q) => toString q
  | some (.pbool b) => if b then "True" else "False"
  | some (.str s) => s

/-- The external collaborators, as oracles.  `fetchRaw` is the ClickHouse
price query of database_retrieval.py lines 21-31 (an `Except.error` is an
exception raised inside the `try`); `armaFit` is `ARIMA(returns,
order=(1,0,1)).fit().params`; `garchFit` is `arch_model(returns, ...)
.fit()`, returning its params table together with the last conditional
volatility; `insertRaw` is the `client.insert` call of
database_retrieval.py lines 69-81 applied to the resolved row.  Each
oracle either returns a value or raises (`Except.error`). -/
structure Env where
  fetchRaw : String → Except String (List ℚ)
  armaFit : List ℚ → Except String ParamMap
  garchFit : List ℚ → Except String (ParamMap × ℚ)
  insertRaw : String → PyVal × PyVal × PyVal → Except String Unit

/-- fetch_price_history (database_retrieval.py lines 21-31): run the
price query; any exception is caught, logged, and coerced to the empty
list. -/
def fetch_price_history (env : Env) (symbol : String) : List ℚ :=
  match env.fetchRaw symbol with
  | .ok prices => prices
  | .error _ => []

/-- The return series `100 * np.log(price_series /
price_series.shift(1)).dropna()` of financial_models.py line 17: one
observation per consecutive price pair, so length `n - 1` for `n`
prices.  The carried value keeps the price ratio; the actual logarithm
is computed by machine floats inside the external fitters and never
inspected by the orchestration logic, which only measures the length of
this series and passes it to the fit oracles. -/
def logReturns (prices : List ℚ) : List ℚ :=
  (prices.tail.zip prices).map fun p => p.1 / p.2

/-- The failure dictionary `{"error": e, "success": False}` of
financial_models.py lines 35-38 and 71-72. -/
def errDict (e : String) : FitDict :=
  [("error", .str e), ("success", .pbool false)]

/-- The success dictionary of financial_models.py lines 22-31 and 41-68:
`success` is `True` and the seven coefficient fields are populated from
the fitter parameter tables with `get` defaults. -/
def successDict (armaP garchP : ParamMap) (lastVol : ℚ) : FitDict :=
  [("success", .pbool true),
   ("ar_coeff", .num (getD armaP "ar.L1" 0)),
   ("ma_coeff", .num (getD armaP "ma.L1" 0)),
   ("const", .num (getD armaP "const" 0)),
   ("omega", .num (getD garchP "omega" 0)),
   ("alpha", .num (getD garchP "alpha[1]" (getD garchP "alpha" 0))),
   ("beta", .num (getD garchP "beta[1]" (getD garchP "beta" 0))),
   ("garch_volatility", .num lastVol)]

/-- train_and_extract_params (financial_models.py lines 10-72): compute
the return series, refuse to train on fewer than 10 return observations,
then run the ARMA and GARCH fits; an exception raised by either fit is
caught by the surrounding `try/except` and converted to the failure
dictionary. -/
def train_and_extract_params (env : Env) (prices : List ℚ) : FitDict :=
  if (logReturns prices).length < 10 then
    errDict "Not enough return observations to train models"
  else
    match env.armaFit (logReturns prices) with
    | .error e => errDict e
    | .ok armaP =>
      match env.garchFit (logReturns prices) with
      | .error e => errDict e
      | .ok gv => successDict armaP gv.1 gv.2

/-- Python `x or 0.0` on an optional dictionary value: the value when
present and truthy, else `0.0`. -/
def pyValOrZero (x : Option PyVal) : PyVal :=
  match x with
  | some v => if isTruthy (some v) then v else .num 0
  | none => .num 0

/-- The row values of database_retrieval.py lines 56-76 as built for
dictionaries produced by this pipeline: the nested branches of the
cascade vanish because a fitter result dictionary carries no `arma` or
`garch` sub-mapping, so `metrics.get("arma", {})` is `{}` and each
cascade reduces to `metrics.get(key) or 0.0` — the value when present
and truthy, else `0.0`.  The general cascade over nested sub-mappings is
modelled by `normalize`. -/
def rowOf (metrics : FitDict) : PyVal × PyVal × PyVal :=
  (pyValOrZero (dget metrics "ar_coeff"),
   pyValOrZero (dget metrics "ma_coeff"),
   pyValOrZero (dget metrics "garch_volatility"))

/-- save_model_results (database_retrieval.py lines 34-81): build the
row and insert it; every exception is caught and logged, so the function
always returns — `true` when the write landed, `false` when it was
swallowed.  The caller never looks at this outcome. -/
def save_model_results (env : Env) (symbol : String) (metrics : FitDict) : Bool :=
  match env.insertRaw symbol (rowOf metrics) with
  | .ok _ => true
  | .error _ => false

/-- process_batch_logic_sync (training_service.py lines 55-79): the
synchronous loop.  Per symbol: fetch, skip when the price list is empty
or shorter than 10 entries, train, and on fitter success append the
result dictionary with the symbol added under the `symbol` key; on
fitter failure log and continue. -/
def process_batch_logic_sync (env : Env) : List String → List FitDict
  | [] => []
  | symbol :: rest =>
    let prices := fetch_price_history env symbol
    if prices.isEmpty ∨ prices.length < 10 then
      process_batch_logic_sync env rest
    else
      let mr := train_and_extract_params env prices
      if isTruthy (dget mr "success") then
        dictSet mr "symbol" (.str symbol) :: process_batch_logic_sync env rest
      else
        process_batch_logic_sync env rest

/-- process_batch_logic (training_service.py lines 23-52): the
background loop.  Per symbol: fetch, skip on no data, skip on fewer than
10 prices, train, and on fitter success store the metrics (outcome
ignored) and append `{symbol: "Success"}` to the summary; on fitter
failure log and continue. -/
def process_batch_logic (env : Env) : List String → List (String × String)
  | [] => []
  | symbol :: rest =>
    let prices := fetch_price_history env symbol
    if prices.isEmpty then
      process_batch_logic env rest
    else if prices.length < 10 then
      process_batch_logic env rest
    else
      let mr := train_and_extract_params env prices
      if isTruthy (dget mr "success") then
        let _stored := save_model_results env symbol mr
        (symbol, "Success") :: process_batch_logic env rest
      else
        process_batch_logic env rest

/-- BatchOutcome: the per-symbol outcome taxonomy of the specification,
mapped onto the branches of the background loop body
(training_service.py lines 30-50): the `continue` after the
`No price data found` warning, the `continue` after the
`Not enough price points` warning, the `Training failed` error branch
carrying `str(model_result.get("error"))`, and the success branch. -/
inductive BatchOutcome where
  | skippedNoData
  | skippedInsufficientData
  | trainingFailed (reason : String)
  | success
  deriving DecidableEq

/-- The branch classification of one iteration of the background loop
(training_service.py lines 30-50), with the outcome names of the
specification taxonomy. -/
def process_symbol (env : Env) (symbol : String) : BatchOutcome :=
  let prices := fetch_price_history env symbol
  if prices.isEmpty then
    .skippedNoData
  else if prices.length < 10 then
    .skippedInsufficientData
  else
    let mr := train_and_extract_params env prices
    if isTruthy (dget mr "success") then
      .success
    else
      .trainingFailed (pyShow (dget mr "error"))

/-- trigger_training_sync (training_service.py lines 82-95): reject an
empty symbol list with HTTP 400 before anything else runs, otherwise
process synchronously and return the results under a
`Processing complete` status. -/
def trigger_training_sync (env : Env) (symbols : List String) :
    Except (ℕ × String) (String × List FitDict) :=
  if symbols.isEmpty then
    .error (400, "No symbols provided")
  else
    .ok ("Processing complete", process_batch_logic_sync env symbols)

/-- trigger_training (training_service.py lines 98-113): reject an empty
symbol list with HTTP 400 before anything else runs, otherwise schedule
`process_batch_logic` on the full list as a single background task and
acknowledge immediately.  The last component records the symbol list
handed to the deferred task. -/
def trigger_training (_env : Env) (symbols : List String) :
    Except (ℕ × String) (String × String × String × List String) :=
  if symbols.isEmpty then
    .error (400, "No symbols provided")
  else
    .ok ("Batch processing started",
      "Queued " ++ toString symbols.length ++ " symbols for training.",
      "Pull Architecture", symbols)

/-- A concrete demonstration environment: `AAPL` has 20 prices and both
fits succeed, `ZZZZ` has 5 prices, `ERR` makes the price query raise,
any other symbol has no data; the metrics insert always fails,
exercising the best-effort persistence path. -/
def demoEnv : Env where
  fetchRaw := fun s =>
    if s = "AAPL" then .ok (List.replicate 20 1)
    else if s = "ZZZZ" then .ok [1, 1, 1, 1, 1]
    else if s = "ERR" then .error "connection refused"
    else .ok []
  armaFit := fun _ =>
    .ok [("ar.L1", (1 : ℚ)/2), ("ma.L1", (1 : ℚ)/4), ("const", (1 : ℚ)/8)]
  garchFit := fun _ =>
    .ok ([("omega", (1 : ℚ)/16), ("alpha[1]", (1 : ℚ)/32), ("beta[1]", (1 : ℚ)/64)], 2)
  insertRaw := fun _ _ => .error "insert failed"

/-- A concrete environment where every symbol has exactly 10 prices, so
the price-count gate passes while the return series has only 9
observations. -/
def env10 : Env where
  fetchRaw := fun _ => .ok (List.replicate 10 1)
  armaFit := fun _ => .ok []
  garchFit := fun _ => .ok ([], 0)
  insertRaw := fun _ _ => .ok ()

/-- A concrete environment where the ARMA fit raises a convergence
error for every series. -/
def envFitFail : Env where
  fetchRaw := fun _ => .ok (List.replicate 20 1)
  armaFit := fun _ => .error "convergence failed"
  garchFit := fun _ => .error "convergence failed"
  insertRaw := fun _ _ => .ok ()

@[simp] lemma dget_nil {α : Type} (k : String) :
    dget ([] : List (String × α)) k = none := rfl

@[simp] lemma dget_cons {α : Type} (k key : String) (v : α) (rest : List (String × α)) :
    dget ((k, v) :: rest) key = if k = key then some v else dget rest key := rfl

lemma dget_append_of_none {α : Type} (b : List (String × α)) :
    ∀ (a : List (String × α)) (k : String), dget a k = none → dget (a ++ b) k = dget b k
  | [], _, _ => rfl
  | (k1, v1) :: tl, k, h => by
    by_cases hk : k1 = k
    · simp [hk] at h
    · simpa [hk] using dget_append_of_none b tl k (by simpa [hk] using h)

lemma dget_append_of_some {α : Type} (b : List (String × α)) :
    ∀ (a : List (String × α)) (k : String) (v : α),
      dget a k = some v → dget (a ++ b) k = some v
  | [], _, _, h => by simp at h
  | (k1, v1) :: tl, k, v, h => by
    by_cases hk : k1 = k
    · simp [hk] at h ⊢; simpa using h
    · simpa [hk] using dget_append_of_some b tl k v (by simpa [hk] using h)

lemma dictSet_of_none {d : FitDict} {k : String} (h : dget d k = none) (v : PyVal) :
    dictSet d k v = d ++ [(k, v)] := by
  unfold dictSet
  rw [h]

/-- C2: the Parameter Normalizer is a total function; it is defined on
every `FittedModel` (totality and the presence of all seven numeric
fields are immediate from its type, since `NormalizedMetrics` carries
seven rational fields), on the empty mapping it returns the all-zero
record, and every field whose source keys are all absent from the input
defaults to `0.0`. -/
theorem C2_normalizer_total (fm : FittedModel) :
    normalize ⟨[], [], []⟩ = ⟨0, 0, 0, 0, 0, 0, 0⟩ ∧
    (dget fm.top "ar_coeff" = none → dget fm.arma "ar_coef" = none →
      dget fm.arma "ar_coeff" = none → (normalize fm).ar_coeff = 0) ∧
    (dget fm.top "ma_coeff" = none → dget fm.arma "ma_coef" = none →
      dget fm.arma "ma_coeff" = none → (normalize fm).ma_coeff = 0) ∧
    (dget fm.top "garch_volatility" = none → dget fm.garch "last_volatility" = none →
      dget fm.garch "garch_volatility" = none → (normalize fm).garch_volatility = 0) ∧
    (dget fm.top "const" = none → (normalize fm).const = 0) ∧
    (dget fm.top "omega" = none → (normalize fm).omega = 0) ∧
    (dget fm.top "alpha[1]" = none → dget fm.top "alpha" = none → (normalize fm).alpha = 0) ∧
    (dget fm.top "beta[1]" = none → dget fm.top "beta" = none → (normalize fm).beta = 0) :=
  ⟨by decide,
   fun h1 h2 h3 => by simp [normalize, pyOr, h1, h2, h3],
   fun h1 h2 h3 => by simp [normalize, pyOr, h1, h2, h3],
   fun h1 h2 h3 => by simp [normalize, pyOr, h1, h2, h3],
   fun h1 => by simp [normalize, getD, h1],
   fun h1 => by simp [normalize, getD, h1],
   fun h1 h2 => by simp [normalize, getD, h1, h2],
   fun h1 h2 => by simp [normalize, getD, h1, h2]⟩

/-- Witness for C2 at concrete inputs: the empty mapping maps to the
all-zero record, and a mapping carrying only an unrelated key still
defaults `ar_coeff` and `const` to `0.0`. -/
theorem C2_normalizer_total_witness :
    normalize ⟨[], [], []⟩ = ⟨0, 0, 0, 0, 0, 0, 0⟩ ∧
    (normalize ⟨[("omega", 3)], [], []⟩).ar_coeff = 0 ∧
    (normalize ⟨[("omega", 3)], [], []⟩).const = 0 :=
  ⟨(C2_normalizer_total ⟨[], [], []⟩).1,
   (C2_normalizer_total ⟨[("omega", 3)], [], []⟩).2.1 (by decide) (by decide) (by decide),
   (C2_normalizer_total ⟨[("omega", 3)], [], []⟩).2.2.2.2.1 (by decide)⟩

/-- C3 counterexample: with the flattened key `ar_coeff` present but
bound to `0.0` and the nested `arma` key `ar_coef` bound to `5`, the
code resolves `ar_coeff` to `5`, not to the value of the first present
key in the stated priority order (which the literal claim,
`normalize_claim`, resolves to `0`): the Python `or` cascade skips a
present-but-zero candidate. -/
theorem C3_resolution_order_counterexample :
    dget (FittedModel.mk [("ar_coeff", 0)] [("ar_coef", 5)] []).top "ar_coeff" = some 0 ∧
    (normalize ⟨[("ar_coeff", 0)], [("ar_coef", 5)], []⟩).ar_coeff = 5 ∧
    (normalize_claim ⟨[("ar_coeff", 0)], [("ar_coef", 5)], []⟩).ar_coeff = 0 := by
  decide

/-- C3 amended: every field is resolved down the stated priority order,
but for `ar_coeff`, `ma_coeff` and `garch_volatility` the winner is the
first candidate that is present with a nonzero value (a present `0.0`
is passed over exactly like an absent key, the documented falsy
imprecision of the Python `or` cascade), while `const`, `omega`,
`alpha` (`alpha[1]` before `alpha`) and `beta` (`beta[1]` before
`beta`) take the first present candidate whatever its value. -/
theorem C3_resolution_order_amended (fm : FittedModel) :
    (normalize fm).ar_coeff =
      firstTruthy [dget fm.top "ar_coeff", dget fm.arma "ar_coef", dget fm.arma "ar_coeff"] ∧
    (normalize fm).ma_coeff =
      firstTruthy [dget fm.top "ma_coeff", dget fm.arma "ma_coef", dget fm.arma "ma_coeff"] ∧
    (normalize fm).garch_volatility =
      firstTruthy [dget fm.top "garch_volatility", dget fm.garch "last_volatility",
        dget fm.garch "garch_volatility"] ∧
    (normalize fm).const = firstPresent [dget fm.top "const"] ∧
    (normalize fm).omega = firstPresent [dget fm.top "omega"] ∧
    (normalize fm).alpha = firstPresent [dget fm.top "alpha[1]", dget fm.top "alpha"] ∧
    (normalize fm).beta = firstPresent [dget fm.top "beta[1]", dget fm.top "beta"] :=
  ⟨pyOr3_eq_firstTruthy _ _ _,
   pyOr3_eq_firstTruthy _ _ _,
   pyOr3_eq_firstTruthy _ _ _,
   getD1_eq_firstPresent _ _,
   getD1_eq_firstPresent _ _,
   getD2_eq_firstPresent _ _ _,
   getD2_eq_firstPresent _ _ _⟩

/-- C4: an input that carries its coefficients only in nested form
(under the `arma` and `garch` sub-mappings, with either nested spelling
of each key) normalizes to the same record as the equivalent input
carrying the same values under the flattened keys. -/
theorem C4_nested_flattened_equivalence (a m g : ℚ) :
    normalize ⟨[], [("ar_coef", a), ("ma_coef", m)], [("last_volatility", g)]⟩ =
      normalize ⟨[("ar_coeff", a), ("ma_coeff", m), ("garch_volatility", g)], [], []⟩ ∧
    normalize ⟨[], [("ar_coeff", a), ("ma_coeff", m)], [("garch_volatility", g)]⟩ =
      normalize ⟨[("ar_coeff", a), ("ma_coeff", m), ("garch_volatility", g)], [], []⟩ :=
  ⟨rfl, rfl⟩

@[simp] lemma dget_errDict_success (e : String) :
    dget (errDict e) "success" = some (.pbool false) := rfl

@[simp] lemma dget_errDict_error (e : String) :
    dget (errDict e) "error" = some (.str e) := rfl

@[simp] lemma dget_successDict_success (a g : ParamMap) (v : ℚ) :
    dget (successDict a g v) "success" = some (.pbool true) := rfl

@[simp] lemma dget_successDict_symbol (a g : ParamMap) (v : ℚ) :
    dget (successDict a g v) "symbol" = none := rfl

/-- Every run of the fitter wrapper yields either a failure dictionary or
the success dictionary built from successful ARMA and GARCH fits on a
return series of at least 10 observations. -/
lemma train_cases (env : Env) (prices : List ℚ) :
    (∃ e, train_and_extract_params env prices = errDict e) ∨
    (∃ armaP garchP lastVol,
      env.armaFit (logReturns prices) = .ok armaP ∧
      env.garchFit (logReturns prices) = .ok (garchP, lastVol) ∧
      10 ≤ (logReturns prices).length ∧
      train_and_extract_params env prices = successDict armaP garchP lastVol) := by
  by_cases hlen : (logReturns prices).length < 10
  · exact Or.inl ⟨_, by unfold train_and_extract_params; rw [if_pos hlen]⟩
  · cases hA : env.armaFit (logReturns prices) with
    | error e =>
      refine Or.inl ⟨e, ?_⟩
      unfold train_and_extract_params
      rw [if_neg hlen, hA]
    | ok armaP =>
      cases hG : env.garchFit (logReturns prices) with
      | error e =>
        refine Or.inl ⟨e, ?_⟩
        unfold train_and_extract_params
        rw [if_neg hlen, hA, hG]
      | ok gv =>
        obtain ⟨garchP, lastVol⟩ := gv
        refine Or.inr ⟨armaP, garchP, lastVol, rfl, rfl, by omega, ?_⟩
        unfold train_and_extract_params
        rw [if_neg hlen, hA, hG]

/-- When the orchestrator sees a truthy `success` entry, the fitter
result is the success dictionary of a pair of successful fits. -/
lemma train_success_shape (env : Env) (prices : List ℚ)
    (h : isTruthy (dget (train_and_extract_params env prices) "success") = true) :
    ∃ armaP garchP lastVol,
      env.armaFit (logReturns prices) = .ok armaP ∧
      env.garchFit (logReturns prices) = .ok (garchP, lastVol) ∧
      10 ≤ (logReturns prices).length ∧
      train_and_extract_params env prices = successDict armaP garchP lastVol := by
  rcases train_cases env prices with ⟨e, he⟩ | hs
  · rw [he] at h
    simp [isTruthy] at h
  · exact hs

/-- The selection predicate of both batch loops: the symbol passes the
price sufficiency gate and the fitter reports success. -/
def selected (env : Env) (symbol : String) : Bool :=
  let prices := fetch_price_history env symbol
  !(prices.isEmpty || decide (prices.length < 10)) &&
    isTruthy (dget (train_and_extract_params env prices) "success")

/-- The record the synchronous loop appends for a selected symbol: the
fitter result dictionary with the symbol added under the `symbol` key. -/
def sync_record (env : Env) (symbol : String) : FitDict :=
  dictSet (train_and_extract_params env (fetch_price_history env symbol))
    "symbol" (.str symbol)

/-- The synchronous loop returns, in input order, exactly the tagged
records of the selected symbols. -/
lemma sync_char (env : Env) (symbols : List String) :
    process_batch_logic_sync env symbols =
      (symbols.filter fun s => selected env s).map fun s => sync_record env s := by
  induction symbols with
  | nil => rfl
  | cons symbol rest ih =>
    simp only [process_batch_logic_sync, List.filter_cons]
    by_cases hgate :
        (fetch_price_history env symbol).isEmpty ∨ (fetch_price_history env symbol).length < 10
    · have hsel : selected env symbol = false := by
        rcases hgate with h | h
        · simp [selected, h]
        · simp [selected, h]
      rw [if_pos hgate, hsel, ih]
      simp
    · push_neg at hgate
      obtain ⟨hne, hlen⟩ := hgate
      have hE2 : (fetch_price_history env symbol).isEmpty = false := by
        simpa using hne
      have hL2 : ¬(fetch_price_history env symbol).length < 10 := by omega
      rw [if_neg (by simp [hE2, hL2])]
      by_cases htr :
          isTruthy (dget (train_and_extract_params env (fetch_price_history env symbol))
            "success") = true
      · have hsel : selected env symbol = true := by
          simp [selected, htr, hE2, hL2]
        rw [if_pos htr, hsel, ih]
        simp [sync_record]
      · have hsel : selected env symbol = false := by
          simp [selected, htr]
        rw [if_neg htr, hsel, ih]
        simp

/-- The background loop summary lists, in input order, exactly the
`(symbol, "Success")` entries of the selected symbols. -/
lemma bg_char (env : Env) (symbols : List String) :
    process_batch_logic env symbols =
      (symbols.filter fun s => selected env s).map fun s => (s, "Success") := by
  induction symbols with
  | nil => rfl
  | cons symbol rest ih =>
    simp only [process_batch_logic, List.filter_cons]
    by_cases hE : (fetch_price_history env symbol).isEmpty
    · have hsel : selected env symbol = false := by simp [selected, hE]
      rw [if_pos hE, hsel, ih]
      simp
    · rw [if_neg hE]
      by_cases hL : (fetch_price_history env symbol).length < 10
      · have hsel : selected env symbol = false := by simp [selected, hL]
        rw [if_pos hL, hsel, ih]
        simp
      · rw [if_neg hL]
        by_cases htr :
            isTruthy (dget (train_and_extract_params env (fetch_price_history env symbol))
              "success") = true
        · have hsel : selected env symbol = true := by
            simp [selected, htr, hE, hL]
          rw [if_pos htr, hsel, ih]
          simp
        · have hsel : selected env symbol = false := by
            simp [selected, htr]
          rw [if_neg htr, hsel, ih]
          simp

/-- Unfolding of the selection predicate: a selected symbol has a
nonempty price list of at least 10 entries and a truthy fitter
`success` entry. -/
lemma selected_spec (env : Env) (symbol : String) (h : selected env symbol = true) :
    10 ≤ (fetch_price_history env symbol).length ∧
    isTruthy (dget (train_and_extract_params env (fetch_price_history env symbol))
      "success") = true := by
  simp only [selected, Bool.and_eq_true, Bool.not_eq_true', Bool.or_eq_false_iff,
    decide_eq_false_iff_not] at h
  exact ⟨by omega, h.2⟩

/-- The tagged record of a selected symbol carries that symbol under the
`symbol` key. -/
lemma sync_record_symbol (env : Env) (symbol : String) (h : selected env symbol = true) :
    dget (sync_record env symbol) "symbol" = some (.str symbol) := by
  obtain ⟨armaP, garchP, lastVol, _, _, _, hshape⟩ :=
    train_success_shape env (fetch_price_history env symbol) (selected_spec env symbol h).2
  unfold sync_record
  rw [hshape, dictSet_of_none (by simp) _]
  rw [dget_append_of_none _ _ _ (by simp)]
  rfl

/-- The tagged record of a selected symbol keeps the truthy `success`
entry of the fitter result. -/
lemma sync_record_success (env : Env) (symbol : String) (h : selected env symbol = true) :
    dget (sync_record env symbol) "success" = some (.pbool true) := by
  obtain ⟨armaP, garchP, lastVol, _, _, _, hshape⟩ :=
    train_success_shape env (fetch_price_history env symbol) (selected_spec env symbol h).2
  unfold sync_record
  rw [hshape, dictSet_of_none (by simp) _,
    dget_append_of_some [("symbol", .str symbol)] (successDict armaP garchP lastVol)
      "success" (.pbool true) (by simp)]

/-- C1: the synchronous batch returns exactly the records of the symbols
that pass the sufficiency gate and whose fit succeeds, each tagged with
its symbol, in input order; skipped and failed symbols are omitted and
contribute no entry of any kind, and the endpoint wraps this list in a
`Processing complete` response. -/
theorem C1_sync_exact_successes (env : Env) (symbols : List String) :
    process_batch_logic_sync env symbols =
      ((symbols.filter fun s => selected env s).map fun s => sync_record env s) ∧
    (symbols ≠ [] →
      trigger_training_sync env symbols =
        .ok ("Processing complete",
          (symbols.filter fun s => selected env s).map fun s => sync_record env s)) := by
  refine ⟨sync_char env symbols, fun hne => ?_⟩
  cases symbols with
  | nil => exact absurd rfl hne
  | cons a rest =>
    simp only [trigger_training_sync, List.isEmpty_cons, Bool.false_eq_true, if_false]
    rw [sync_char env (a :: rest)]

/-- Witness for C1 at a concrete batch: two symbols, one trainable and
one with too few prices. -/
theorem C1_sync_exact_successes_witness :
    trigger_training_sync demoEnv ["AAPL", "ZZZZ"] =
      .ok ("Processing complete",
        (["AAPL", "ZZZZ"].filter fun s => selected demoEnv s).map
          fun s => sync_record demoEnv s) :=
  (C1_sync_exact_successes demoEnv ["AAPL", "ZZZZ"]).2 (by decide)

/-- C5 counterexample: with exactly 10 flat prices the price-count gate
passes and the return series has 9 observations, yet the per-symbol
outcome is the `Training failed` branch carrying the fitter error
message, not `SkippedInsufficientData`. -/
theorem C5_return_gate_counterexample :
    (fetch_price_history env10 "S").length = 10 ∧
    (logReturns (fetch_price_history env10 "S")).length = 9 ∧
    process_symbol env10 "S" ≠ BatchOutcome.skippedInsufficientData ∧
    process_symbol env10 "S" =
      .trainingFailed "Not enough return observations to train models" := by
  decide

/-- C5 amended: for every symbol whose price list passes the price-count
gate while its return series has fewer than 10 observations, the
outcome is recorded as a training failure carrying the reason
`Not enough return observations to train models` — the return-length
check lives inside the Model Fitter wrapper, which reports
`success=False` rather than a skip — and no model estimation runs: the
outcome is identical under every fitting oracle. -/
theorem C5_return_gate_amended (env : Env) (symbol : String)
    (hlen : 10 ≤ (fetch_price_history env symbol).length)
    (hret : (logReturns (fetch_price_history env symbol)).length < 10) :
    process_symbol env symbol =
      .trainingFailed "Not enough return observations to train models" ∧
    ∀ af gf,
      process_symbol { env with armaFit := af, garchFit := gf } symbol =
        .trainingFailed "Not enough return observations to train models" := by
  have key : ∀ env2 : Env,
      fetch_price_history env2 symbol = fetch_price_history env symbol →
      process_symbol env2 symbol =
        .trainingFailed "Not enough return observations to train models" := by
    intro env2 hf
    have hE : (fetch_price_history env symbol).isEmpty = false := by
      cases hp : fetch_price_history env symbol with
      | nil => rw [hp] at hlen; simp at hlen
      | cons a l => rfl
    have htr : train_and_extract_params env2 (fetch_price_history env symbol) =
        errDict "Not enough return observations to train models" := by
      unfold train_and_extract_params
      rw [if_pos hret]
    simp only [process_symbol]
    rw [hf, if_neg (by simp [hE]), if_neg (by omega), htr]
    rfl
  exact ⟨key env rfl, fun af gf => key _ rfl⟩

/-- Witness for C5 amended at the concrete 10-price environment. -/
theorem C5_return_gate_amended_witness :
    process_symbol env10 "S" =
      .trainingFailed "Not enough return observations to train models" :=
  (C5_return_gate_amended env10 "S" (by decide) (by decide)).1

/-- C6: a symbol whose Price Source result has fewer than 10
observations (including none at all) is excluded from the output of
both modes, and the Model Fitter is never invoked for it: its outcome
is one of the two skip outcomes and is unchanged under every fitting
oracle. -/
theorem C6_short_series_excluded (env : Env) (symbol : String)
    (h : (fetch_price_history env symbol).length < 10) :
    (∀ symbols, ∀ d ∈ process_batch_logic_sync env symbols,
      dget d "symbol" ≠ some (.str symbol)) ∧
    (∀ symbols, (symbol, "Success") ∉ process_batch_logic env symbols) ∧
    process_symbol env symbol =
      (if (fetch_price_history env symbol).isEmpty then BatchOutcome.skippedNoData
       else BatchOutcome.skippedInsufficientData) ∧
    (∀ af gf, process_symbol { env with armaFit := af, garchFit := gf } symbol =
      process_symbol env symbol) := by
  have cls : ∀ env2 : Env,
      fetch_price_history env2 symbol = fetch_price_history env symbol →
      process_symbol env2 symbol =
        (if (fetch_price_history env symbol).isEmpty then BatchOutcome.skippedNoData
         else BatchOutcome.skippedInsufficientData) := by
    intro env2 hf
    simp only [process_symbol]
    rw [hf]
    by_cases hE : (fetch_price_history env symbol).isEmpty
    · rw [if_pos hE, if_pos hE]
    · rw [if_neg hE, if_neg hE, if_pos h]
  refine ⟨?_, ?_, cls env rfl, fun af gf =>
    (cls { env with armaFit := af, garchFit := gf } rfl).trans (cls env rfl).symm⟩
  · intro symbols d hd hcontra
    rw [sync_char env symbols] at hd
    obtain ⟨s, hs, rfl⟩ := List.mem_map.mp hd
    obtain ⟨hmem, hsel⟩ := List.mem_filter.mp hs
    rw [sync_record_symbol env s hsel] at hcontra
    have hss : s = symbol := by
      injection hcontra with h2
      injection h2
    subst hss
    exact absurd (selected_spec env s hsel).1 (by omega)
  · intro symbols hmem
    rw [bg_char env symbols] at hmem
    obtain ⟨s, hs, heq⟩ := List.mem_map.mp hmem
    obtain ⟨_, hsel⟩ := List.mem_filter.mp hs
    have hss : s = symbol := by
      injection heq
    subst hss
    exact absurd (selected_spec env s hsel).1 (by omega)

/-- Witness for C6 at a concrete batch: the 5-price symbol `ZZZZ` is
absent from the background summary and classified as skipped. -/
theorem C6_short_series_excluded_witness :
    ("ZZZZ", "Success") ∉ process_batch_logic demoEnv ["AAPL", "ZZZZ"] ∧
    process_symbol demoEnv "ZZZZ" =
      (if (fetch_price_history demoEnv "ZZZZ").isEmpty then BatchOutcome.skippedNoData
       else BatchOutcome.skippedInsufficientData) :=
  ⟨(C6_short_series_excluded demoEnv "ZZZZ" (by decide)).2.1 ["AAPL", "ZZZZ"],
   (C6_short_series_excluded demoEnv "ZZZZ" (by decide)).2.2.1⟩

/-- C7: synchronous-mode processing never raises.  The embedded loop is
a total function whose output holds between 0 and N records for N input
symbols, every returned record is a success record, a Price Source
exception is coerced to the empty price list (and hence a skip), and an
exception from either fitter yields a falsy `success` entry (and hence
a logged per-symbol failure, omitted from the output). -/
theorem C7_sync_never_raises (env : Env) (symbols : List String) :
    (process_batch_logic_sync env symbols).length ≤ symbols.length ∧
    (∀ d ∈ process_batch_logic_sync env symbols,
      dget d "success" = some (.pbool true)) ∧
    (∀ symbol e, env.fetchRaw symbol = .error e →
      fetch_price_history env symbol = []) ∧
    (∀ prices e, env.armaFit (logReturns prices) = .error e →
      isTruthy (dget (train_and_extract_params env prices) "success") = false) ∧
    (∀ prices e, env.garchFit (logReturns prices) = .error e →
      isTruthy (dget (train_and_extract_params env prices) "success") = false) := by
  refine ⟨?_, ?_, ?_, ?_, ?_⟩
  · rw [sync_char env symbols]
    simpa using List.length_filter_le _ symbols
  · intro d hd
    rw [sync_char env symbols] at hd
    obtain ⟨s, hs, rfl⟩ := List.mem_map.mp hd
    obtain ⟨_, hsel⟩ := List.mem_filter.mp hs
    exact sync_record_success env s hsel
  · intro symbol e he
    unfold fetch_price_history
    rw [he]
  · intro prices e he
    unfold train_and_extract_params
    by_cases hlen : (logReturns prices).length < 10
    · rw [if_pos hlen]; rfl
    · rw [if_neg hlen, he]; rfl
  · intro prices e he
    unfold train_and_extract_params
    by_cases hlen : (logReturns prices).length < 10
    · rw [if_pos hlen]; rfl
    · rw [if_neg hlen]
      cases hA : env.armaFit (logReturns prices) with
      | error eA => rfl
      | ok armaP => rw [he]; rfl

/-- Witness for C7 at concrete batches: a mixed four-symbol batch stays
within the length bound, a raising price query yields the empty list,
and a raising ARMA fit yields a falsy success flag. -/
theorem C7_sync_never_raises_witness :
    (process_batch_logic_sync demoEnv ["AAPL", "ZZZZ", "ERR", "NONE"]).length ≤ 4 ∧
    fetch_price_history demoEnv "ERR" = [] ∧
    isTruthy (dget (train_and_extract_params envFitFail (List.replicate 20 1))
      "success") = false :=
  ⟨(C7_sync_never_raises demoEnv ["AAPL", "ZZZZ", "ERR", "NONE"]).1,
   (C7_sync_never_raises demoEnv []).2.2.1 "ERR" "connection refused" rfl,
   (C7_sync_never_raises envFitFail []).2.2.2.1 (List.replicate 20 1)
     "convergence failed" rfl⟩

/-- C8: the Result Sink store is best-effort.  A failing insert makes
`save_model_results` return (it never raises — `false` reports the
swallowed exception); the background summary is identical under every
insert oracle; and a symbol whose fit succeeded still appears as
`Success` in the summary when every write fails. -/
theorem C8_store_best_effort (env : Env)
    (f : String → PyVal × PyVal × PyVal → Except String Unit)
    (symbols : List String) (symbol : String) (metrics : FitDict) (e : String)
    (hmem : symbol ∈ symbols) (hsel : selected env symbol = true) :
    save_model_results { env with insertRaw := fun _ _ => Except.error e }
      symbol metrics = false ∧
    process_batch_logic { env with insertRaw := f } symbols =
      process_batch_logic env symbols ∧
    (symbol, "Success") ∈ process_batch_logic { env with insertRaw := f } symbols := by
  have hsame : (fun s => selected { env with insertRaw := f } s) =
      fun s => selected env s :=
    funext fun _ => rfl
  refine ⟨rfl, ?_, ?_⟩
  · rw [bg_char { env with insertRaw := f } symbols, bg_char env symbols, hsame]
  · rw [bg_char { env with insertRaw := f } symbols]
    exact List.mem_map.mpr ⟨symbol, List.mem_filter.mpr ⟨hmem, hsel⟩, rfl⟩

/-- Witness for C8: with an always-failing insert oracle, `AAPL` is
still reported as `Success` and the failed write is swallowed. -/
theorem C8_store_best_effort_witness :
    save_model_results { demoEnv with insertRaw := fun _ _ => Except.error "disk full" }
      "AAPL" [] = false ∧
    ("AAPL", "Success") ∈
      process_batch_logic { demoEnv with insertRaw := fun _ _ => Except.error "disk full" }
        ["AAPL"] :=
  ⟨(C8_store_best_effort demoEnv (fun _ _ => Except.error "disk full") ["AAPL"] "AAPL"
      [] "disk full" (by decide) (by decide)).1,
   (C8_store_best_effort demoEnv (fun _ _ => Except.error "disk full") ["AAPL"] "AAPL"
      [] "disk full" (by decide) (by decide)).2.2⟩

/-- C9: the empty symbol list is rejected by both endpoints with an
HTTP 400 client error; the rejection holds for every environment, so no
Price Source call can have influenced it. -/
theorem C9_empty_list_rejected (env : Env) :
    trigger_training_sync env [] = .error (400, "No symbols provided") ∧
    trigger_training env [] = .error (400, "No symbols provided") :=
  ⟨rfl, rfl⟩

/-- The seven coefficient fields of a result record. -/
def sevenKeys : List String :=
  ["ar_coeff", "ma_coeff", "const", "omega", "alpha", "beta", "garch_volatility"]

/-- C10: every record returned by the synchronous path is the Model
Fitter result dictionary itself with the symbol appended under the
`symbol` key — no separate normalization step is applied — and it
carries `success ↦ True`, `symbol ↦` its symbol, and numeric values at
all seven coefficient fields. -/
theorem C10_sync_record_shape (env : Env) (symbols : List String) (d : FitDict)
    (hd : d ∈ process_batch_logic_sync env symbols) :
    ∃ s ∈ symbols,
      d = dictSet (train_and_extract_params env (fetch_price_history env s))
            "symbol" (.str s) ∧
      dget d "success" = some (.pbool true) ∧
      dget d "symbol" = some (.str s) ∧
      ∀ k ∈ sevenKeys, ∃ q, dget d k = some (.num q) := by
  rw [sync_char env symbols] at hd
  obtain ⟨s, hs, rfl⟩ := List.mem_map.mp hd
  obtain ⟨hmem, hsel⟩ := List.mem_filter.mp hs
  obtain ⟨armaP, garchP, lastVol, _, _, _, hshape⟩ :=
    train_success_shape env (fetch_price_history env s) (selected_spec env s hsel).2
  refine ⟨s, hmem, rfl, sync_record_success env s hsel, sync_record_symbol env s hsel, ?_⟩
  intro k hk
  have hrec : sync_record env s =
      successDict armaP garchP lastVol ++ [("symbol", .str s)] := by
    unfold sync_record
    rw [hshape, dictSet_of_none (by simp) _]
  rw [hrec]
  fin_cases hk <;> exact ⟨_, rfl⟩

/-- Witness for C10 at the concrete one-symbol batch. -/
theorem C10_sync_record_shape_witness :
    ∃ s ∈ ["AAPL"],
      sync_record demoEnv "AAPL" =
        dictSet (train_and_extract_params demoEnv (fetch_price_history demoEnv s))
          "symbol" (.str s) ∧
      dget (sync_record demoEnv "AAPL") "success" = some (.pbool true) ∧
      dget (sync_record demoEnv "AAPL") "symbol" = some (.str s) ∧
      ∀ k ∈ sevenKeys, ∃ q, dget (sync_record demoEnv "AAPL") k = some (.num q) :=
  C10_sync_record_shape demoEnv ["AAPL"] (sync_record demoEnv "AAPL") (by
    rw [sync_char demoEnv ["AAPL"]]
    exact List.mem_map_of_mem _
      (List.mem_filter.mpr ⟨List.mem_singleton.mpr rfl, by decide⟩))

end ArmaGarch
